import Mathlib

/-!
Verification of the static home-page generator (`home.py`).

The development shallowly embeds the program's pure logic:

* `slug_to_label` — slug → display-label normalization (`home.py`, lines 40-46),
  together with models of the Python string primitives it uses
  (`str.title`, `str.lower`, `str.split("-")`, `str.replace("-", " ")`).
* `discover_city_pages` — filesystem discovery over a modelled directory tree
  (`home.py`, lines 11-37).
* `build_home_html` — HTML templating with escaping (`home.py`, lines 54-288),
  with `html_escape` modelling the Python stdlib `html.escape`.

A directory tree is modelled as the list of its regular files, each given by
its list of path components relative to the scanned directory, plus a flag
recording whether the directory exists.
-/

/-- Model of CPython `str.title()` for strings of ASCII letters and
non-letter characters: a cased character following a non-cased character is
uppercased, a cased character following a cased character is lowercased,
other characters pass through.  The `Bool` argument records whether the
previous character was cased. -/
def titleChars : Bool → List Char → List Char
  | _, [] => []
  | prevCased, c :: cs =>
      (if c.isAlpha then (if prevCased then c.toLower else c.toUpper) else c)
        :: titleChars c.isAlpha cs

/-- Python `s.title()` (ASCII model). -/
def str_title (s : String) : String := String.mk (titleChars false s.data)

/-- Python `s.replace("-", " ")`: every hyphen becomes a space (the pattern is
a single character, so the general replace specializes to a character map). -/
def hyphenToSpace (s : String) : String :=
  String.mk (s.data.map (fun c => if c = '-' then ' ' else c))

/-- Python `s.lower()` (ASCII model, matching the slugs' character set). -/
def str_lower (s : String) : String := String.mk (s.data.map Char.toLower)

/-- Helper for `str_split_hyphen`: `acc` holds the current piece reversed. -/
def splitHyphenAux : List Char → List Char → List String
  | acc, [] => [String.mk acc.reverse]
  | acc, c :: cs =>
      if c = '-' then String.mk acc.reverse :: splitHyphenAux [] cs
      else splitHyphenAux (c :: acc) cs

/-- Python `slug.split("-")`: splits at every hyphen, keeping empty pieces;
the empty string yields `[""]`. -/
def str_split_hyphen (s : String) : List String := splitHyphenAux [] s.data

example : str_split_hyphen "" = [""] := by decide
example : str_split_hyphen "a--b-" = ["a", "", "b", ""] := by decide

/-- Python `sep.join(pieces)`. -/
def str_join (sep : String) : List String → String
  | [] => ""
  | [s] => s
  | s :: rest => s ++ sep ++ str_join sep rest

/-- `slug_to_label` from `home.py` (lines 40-46):

    parts = slug.split("-")
    if parts and parts[-1].lower() == "nc":
        city = " ".join(parts[:-1]) or "NC"
        return f"{city.title()}, NC"
    return slug.replace("-", " ").title()

`" ".join(...) or "NC"` is Python's empty-string fallback: the join is used
unless it is `""`, in which case the literal `"NC"` is used. -/
def slug_to_label (slug : String) : String :=
  let parts := str_split_hyphen slug
  if parts ≠ [] ∧ str_lower (parts.getLastD "") = "nc" then
    let city := if str_join " " parts.dropLast = "" then "NC"
                else str_join " " parts.dropLast
    str_title city ++ ", NC"
  else
    str_title (hyphenToSpace slug)

example : slug_to_label "chapel-hill-nc" = "Chapel Hill, NC" := by decide
example : slug_to_label "raleigh" = "Raleigh" := by decide
example : slug_to_label "winston-salem-nc" = "Winston Salem, NC" := by decide
example : slug_to_label "nc" = "Nc, NC" := by decide

/-! ## The directory-tree model and `discover_city_pages` -/

/-- The scanned output directory (`dist`): the flag `dirExists` models
`dist_dir.exists()` and `files` lists every regular file below the directory,
as components relative to it (so `dist/raleigh/index.html` is
`["raleigh", "index.html"]`).  The model ranges over trees of regular files;
a directory whose own name matches `*.html` is outside the model. -/
structure DistDir where
  dirExists : Bool
  files : List (List String)

/-- Python `pathlib.Path.name` for a file given by its components. -/
def fileName (p : List String) : String := p.getLastD ""

/-- Python `path.parent.name`: the name of the containing directory. -/
def parentName (p : List String) : String := p.dropLast.getLastD ""

/-- Index of the last `'.'` in a character list (Python `str.rfind('.')`),
`none` when absent. -/
def lastDotIdx (cs : List Char) : Option Nat :=
  match cs.reverse.findIdx? (fun c => c == '.') with
  | none => none
  | some j => some (cs.length - 1 - j)

/-- Python `pathlib.PurePath.stem`: the final component without its suffix.
CPython keeps the whole name when the last dot is at position `0` (hidden
files such as `.html`) or ends the name. -/
def stem (name : String) : String :=
  match lastDotIdx name.data with
  | none => name
  | some i =>
      if 0 < i ∧ i < name.data.length - 1 then String.mk (name.data.take i) else name

example : stem "raleigh.html" = "raleigh" := by decide
example : stem ".html" = ".html" := by decide
example : stem "a.b.html" = "a.b" := by decide

/-- Python `str.endswith` (used to model the `rglob("*.html")` filter, whose
pattern matches exactly the names ending in `.html`). -/
def str_endsWith (s suffix : String) : Bool := suffix.data.isSuffixOf s.data

/-- The slug of a candidate page (`home.py`, lines 27-30): the directory name
for an `index.html`, otherwise the filename's stem. -/
def slugOf (p : List String) : String :=
  if fileName p = "index.html" then parentName p else stem (fileName p)

/-- The label of a candidate page (`home.py`, line 32). -/
def labelOf (p : List String) : String := slug_to_label (slugOf p)

/-- Python `label not in discovered`, on the association-list model of the
`discovered` dict. -/
def lookupLabel : List (String × List String) → String → Option (List String)
  | [], _ => none
  | (k, v) :: rest, lbl => if k = lbl then some v else lookupLabel rest lbl

/-- `discovered[label] = path` on the association-list model of a Python
dict: an existing key keeps its position and gets the new value, a new key is
appended at the end. -/
def insertUpdate : List (String × List String) → String → List String →
    List (String × List String)
  | [], lbl, p => [(lbl, p)]
  | (k, v) :: rest, lbl, p =>
      if k = lbl then (k, p) :: rest else (k, v) :: insertUpdate rest lbl p

/-- One iteration of the discovery loop (`home.py`, lines 18-35): skip the
statewide `dist/index.html`, skip loose root files, then record the candidate
under its label — unconditionally for a new label, and for an existing label
only when the candidate is named `index.html`. -/
def processPath (d : List (String × List String)) (p : List String) :
    List (String × List String) :=
  if p = ["index.html"] then d
  else if p.length = 1 ∧ fileName p ≠ "index.html" then d
  else if lookupLabel d (labelOf p) = none ∨ fileName p = "index.html" then
    insertUpdate d (labelOf p) p
  else d

/-- Lexicographic strict comparison of character lists by code point: Python's
string `<`. -/
def lexLtB : List Char → List Char → Bool
  | [], [] => false
  | [], _ :: _ => true
  | _ :: _, [] => false
  | a :: as, b :: bs =>
      if a.toNat < b.toNat then true
      else if a = b then lexLtB as bs
      else false

theorem lexLtB_asymm : ∀ as bs, lexLtB as bs = true → lexLtB bs as = false := by
  intro as
  induction as with
  | nil => intro bs _; cases bs <;> rfl
  | cons a as ih =>
    intro bs h
    cases bs with
    | nil => simp [lexLtB] at h
    | cons b bs =>
      simp only [lexLtB] at h ⊢
      by_cases h1 : a.toNat < b.toNat
      · have h2 : ¬ b.toNat < a.toNat := Nat.lt_asymm h1
        have h3 : b ≠ a := by rintro rfl; exact absurd h1 (lt_irrefl _)
        simp [h2, h3]
      · by_cases h2 : a = b
        · subst h2
          simp only [if_neg (lt_irrefl a.toNat), if_pos rfl] at h ⊢
          exact ih bs h
        · simp [h1, h2] at h

theorem lexLtB_conn : ∀ as bs, lexLtB as bs = false → lexLtB bs as = false → as = bs := by
  intro as
  induction as with
  | nil => intro bs h _; cases bs with
    | nil => rfl
    | cons b bs => simp [lexLtB] at h
  | cons a as ih =>
    intro bs h h'
    cases bs with
    | nil => simp [lexLtB] at h'
    | cons b bs =>
      simp only [lexLtB] at h h'
      by_cases h1 : a.toNat < b.toNat
      · simp [h1] at h
      · by_cases h2 : a = b
        · subst h2
          simp only [if_neg h1, if_pos rfl] at h h'
          exact congrArg (a :: ·) (ih bs h h')
        · have h3 : b.toNat < a.toNat := by
            rcases Nat.lt_trichotomy a.toNat b.toNat with hlt | heq | hgt
            · exact absurd hlt h1
            · exact absurd (Char.eq_of_val_eq (UInt32.toNat.inj heq)) h2
            · exact hgt
          simp [h3] at h'

theorem lexLtB_trans :
    ∀ as bs cs, lexLtB as bs = true → lexLtB bs cs = true → lexLtB as cs = true := by
  intro as
  induction as with
  | nil =>
    intro bs cs h h'
    cases bs with
    | nil => exact h'
    | cons b bs =>
      cases cs with
      | nil => simp [lexLtB] at h'
      | cons c cs => rfl
  | cons a as ih =>
    intro bs cs h h'
    cases bs with
    | nil => simp [lexLtB] at h
    | cons b bs =>
      cases cs with
      | nil => simp [lexLtB] at h'
      | cons c cs =>
        simp only [lexLtB] at h h' ⊢
        by_cases h1 : a.toNat < b.toNat
        · by_cases h2 : b.toNat < c.toNat
          · simp [Nat.lt_trans h1 h2]
          · by_cases h3 : b = c
            · subst h3; simp [h1]
            · simp [h2, h3] at h'
        · by_cases h2 : a = b
          · subst h2
            simp only [if_neg h1, if_pos rfl] at h
            by_cases h3 : a.toNat < c.toNat
            · simp [h3]
            · by_cases h4 : a = c
              · subst h4
                simp only [if_neg h3, if_pos rfl] at h' ⊢
                exact ih bs cs h h'
              · simp [h3, h4] at h'
          · simp [h1, h2] at h

/-- Python string `<` (lexicographic by code point), as on `str`. -/
def strLt (a b : String) : Prop := lexLtB a.data b.data = true

/-- Python string `<=`. -/
def strLe (a b : String) : Prop := lexLtB b.data a.data = false

instance : DecidableRel strLt := fun a b => by unfold strLt; infer_instance

instance : DecidableRel strLe := fun a b => by unfold strLe; infer_instance

theorem strLe_total (a b : String) : strLe a b ∨ strLe b a := by
  by_cases h : lexLtB b.data a.data = true
  · exact Or.inr (lexLtB_asymm _ _ h)
  · exact Or.inl (Bool.eq_false_iff.mpr h)

theorem strLe_trans {a b c : String} : strLe a b → strLe b c → strLe a c := by
  intro h1 h2
  by_contra h3
  have h3' : lexLtB c.data a.data = true := by
    cases h : lexLtB c.data a.data
    · exact absurd h h3
    · rfl
  by_cases h4 : lexLtB b.data c.data = true
  · have := lexLtB_trans _ _ _ h4 h3'
    simp [strLe, this] at h1
  · have hbc : b.data = c.data :=
      lexLtB_conn _ _ (Bool.eq_false_iff.mpr h4) h2
    rw [← hbc] at h3'
    simp [strLe, h3'] at h1

theorem strLe_conn {a b : String} : strLe a b → strLe b a → a = b := by
  intro h1 h2
  have : b.data = a.data := lexLtB_conn _ _ h1 h2
  cases a; cases b; simp_all

/-- The joined POSIX path of a relative component list; `sorted(...)` over
`pathlib` paths orders them by the full path string, and since every scanned
path shares the `dist/` prefix this is the order on the joined relative
components. -/
def pathKey (p : List String) : String := str_join "/" p

/-- The enumeration order of `sorted(dist_dir.rglob("*.html"))`. -/
def pathLe (a b : List String) : Prop := strLe (pathKey a) (pathKey b)

instance : DecidableRel pathLe := fun a b => by unfold pathLe; infer_instance

instance : IsTotal (List String) pathLe := ⟨fun a b => strLe_total (pathKey a) (pathKey b)⟩

instance : IsTrans (List String) pathLe := ⟨fun _ _ _ h₁ h₂ => strLe_trans h₁ h₂⟩

/-- The order of `sorted(discovered.items())`: Python tuple comparison, label
first, path as tie-break. -/
def itemLe (a b : String × List String) : Prop :=
  strLt a.1 b.1 ∨ (a.1 = b.1 ∧ pathLe a.2 b.2)

instance : DecidableRel itemLe := fun a b => by unfold itemLe; infer_instance

instance : IsTotal (String × List String) itemLe := ⟨fun a b => by
  by_cases h1 : strLt a.1 b.1
  · exact Or.inl (Or.inl h1)
  · by_cases h2 : strLt b.1 a.1
    · exact Or.inr (Or.inl h2)
    · have he : a.1 = b.1 := by
        have ha : lexLtB a.1.data b.1.data = false := by
          cases h : lexLtB a.1.data b.1.data
          · rfl
          · exact absurd h h1
        have hb : lexLtB b.1.data a.1.data = false := by
          cases h : lexLtB b.1.data a.1.data
          · rfl
          · exact absurd h h2
        exact strLe_conn hb ha
      rcases total_of pathLe a.2 b.2 with hp | hp
      · exact Or.inl (Or.inr ⟨he, hp⟩)
      · exact Or.inr (Or.inr ⟨he.symm, hp⟩)⟩

instance : IsTrans (String × List String) itemLe := ⟨fun a b c hab hbc => by
  rcases hab with h₁ | ⟨e₁, p₁⟩
  · rcases hbc with h₂ | ⟨e₂, p₂⟩
    · exact Or.inl (lexLtB_trans _ _ _ h₁ h₂)
    · exact Or.inl (e₂ ▸ h₁)
  · rcases hbc with h₂ | ⟨e₂, p₂⟩
    · exact Or.inl (by rw [e₁]; exact h₂)
    · exact Or.inr ⟨e₁.trans e₂, trans_of pathLe p₁ p₂⟩⟩

/-- The files produced by `dist_dir.rglob("*.html")`: every file whose name
ends in `.html`. -/
def htmlFiles (t : DistDir) : List (List String) :=
  t.files.filter (fun p => str_endsWith (fileName p) ".html")

/-- `sorted(dist_dir.rglob("*.html"))` (`home.py`, line 18). -/
def enumeratedPaths (t : DistDir) : List (List String) :=
  List.insertionSort pathLe (htmlFiles t)

/-- The `discovered` dict after the scan loop (`home.py`, lines 16-35). -/
def discoveredIndex (t : DistDir) : List (String × List String) :=
  (enumeratedPaths t).foldl processPath []

/-- `rel_path(dist_dir.parent, p)` from `home.py` (lines 49-51): the
POSIX-style path of the file relative to the parent of the scanned directory,
i.e. the directory's own name followed by the file's components. -/
def rel_path (distName : String) (p : List String) : String :=
  str_join "/" (distName :: p)

/-- `discover_city_pages` from `home.py` (lines 11-37): empty when the
directory does not exist, otherwise the `discovered` items sorted by label
(tuple order) with each path made relative to the directory's parent. -/
def discover_city_pages (t : DistDir) (distName : String) : List (String × String) :=
  if t.dirExists then
    (List.insertionSort itemLe (discoveredIndex t)).map
      (fun e => (e.1, rel_path distName e.2))
  else []

example :
    discover_city_pages ⟨true, [["raleigh.html"], ["raleigh", "index.html"]]⟩ "dist"
      = [("Raleigh", "dist/raleigh/index.html")] := by decide

example :
    discover_city_pages
        ⟨true, [["index.html"], ["about.html"], ["durham", "index.html"],
                ["chapel-hill-nc", "index.html"], ["notes.txt"]]⟩ "dist"
      = [("Chapel Hill, NC", "dist/chapel-hill-nc/index.html"),
         ("Durham", "dist/durham/index.html")] := by decide

/-! ## The renderer: `build_home_html` -/

/-- The lines of the fixed template part (`home.py`, lines 64-288) that
precede the `<select>` element: everything before the interpolation point except
its last two lines. -/
def htmlHeadLines : List String :=
  ["<!DOCTYPE html>",
   "<html lang=\"en\">",
   "<head>",
   "  <meta charset=\"utf-8\" />",
   "  <meta name=\"viewport\" content=\"width=device-width, initial-scale=1\" />",
   "  <title>North Carolina Careers Hub</title>",
   "  <style>",
   "    :root \x7b",
   "      color-scheme: light;",
   "      font-family: \"Segoe UI\", system-ui, -apple-system, sans-serif;",
   "      line-height: 1.6;",
   "      --bg: #f5f7fb;",
   "      --text: #1f2933;",
   "      --muted: #637183;",
   "      --accent: #2463eb;",
   "      --accent-dark: #1a44a6;",
   "      --card: #ffffff;",
   "      --shadow: 0 18px 45px rgba(15, 31, 62, 0.12);",
   "      --radius: 18px;",
   "    \x7d",
   "",
   "    *, *::before, *::after \x7b",
   "      box-sizing: border-box;",
   "    \x7d",
   "",
   "    body \x7b",
   "      margin: 0;",
   "      min-height: 100vh;",
   "      background: var(--bg);",
   "      color: var(--text);",
   "      display: flex;",
   "      flex-direction: column;",
   "    \x7d",
   "",
   "    header \x7b",
   "      background: linear-gradient(145deg, #102b5d, #15407c, #2463eb);",
   "      color: #fff;",
   "      padding: 3.5rem 1.5rem 3rem;",
   "      text-align: center;",
   "    \x7d",
   "",
   "    header h1 \x7b",
   "      margin: 0;",
   "      font-size: clamp(2.2rem, 3vw + 1.2rem, 3.2rem);",
   "      letter-spacing: -0.015em;",
   "    \x7d",
   "",
   "    header p \x7b",
   "      margin: 1rem auto 0;",
   "      max-width: 60ch;",
   "      color: #dce7ff;",
   "    \x7d",
   "",
   "    main \x7b",
   "      flex: 1 1 auto;",
   "      width: min(900px, 92%);",
   "      margin: -2.5rem auto 0;",
   "    \x7d",
   "",
   "    .search-card \x7b",
   "      background: var(--card);",
   "      border-radius: var(--radius);",
   "      box-shadow: var(--shadow);",
   "      padding: 2.2rem 2.4rem;",
   "      display: grid;",
   "      gap: 1.4rem;",
   "    \x7d",
   "",
   "    .search-card h2 \x7b",
   "      margin: 0;",
   "      font-size: clamp(1.5rem, 1.4vw + 1rem, 2rem);",
   "    \x7d",
   "",
   "    .search-form \x7b",
   "      display: grid;",
   "      gap: 1rem;",
   "    \x7d",
   "",
   "    .search-fields \x7b",
   "      display: grid;",
   "      gap: 0.75rem;",
   "    \x7d",
   "",
   "    @media (min-width: 640px) \x7b",
   "      .search-fields \x7b",
   "        grid-template-columns: 1fr 1fr;",
   "        gap: 0.85rem;",
   "        align-items: center;",
   "      \x7d",
   "    \x7d",
   "",
   "    @media (min-width: 960px) \x7b",
   "      .search-fields \x7b",
   "        grid-template-columns: 1.1fr 1fr 1fr;",
   "      \x7d",
   "    \x7d",
   "",
   "    .search-fields input \x7b",
   "      border: 1px solid rgba(31, 41, 51, 0.1);",
   "      border-radius: 999px;",
   "      padding: 0.85rem 1.1rem;",
   "      font-size: 1rem;",
   "      width: 100%;",
   "    \x7d",
   "",
   "    .search-fields select \x7b",
   "      border: 1px solid rgba(31, 41, 51, 0.12);",
   "      border-radius: 999px;",
   "      padding: 0.85rem 1.1rem;",
   "      font-size: 1rem;",
   "      width: 100%;",
   "      background: #fff;",
   "    \x7d",
   "",
   "    .search-form button \x7b",
   "      justify-self: flex-start;",
   "      border: none;",
   "      border-radius: 999px;",
   "      padding: 0.85rem 1.8rem;",
   "      background: var(--accent);",
   "      color: #fff;",
   "      font-weight: 600;",
   "      cursor: pointer;",
   "      transition: transform 0.2s ease, box-shadow 0.2s ease, background 0.2s ease;",
   "    \x7d",
   "",
   "    .search-form button:hover \x7b",
   "      background: var(--accent-dark);",
   "      transform: translateY(-2px);",
   "      box-shadow: var(--shadow);",
   "    \x7d",
   "",
   "    footer \x7b",
   "      padding: 2rem 0 2.5rem;",
   "      text-align: center;",
   "      color: var(--muted);",
   "      font-size: 0.95rem;",
   "    \x7d",
   "  </style>",
   "</head>",
   "<body>",
   "  <header>",
   "    <h1>North Carolina Careers Hub</h1>",
   "    <p>Explore in-demand roles across the Tar Heel State. Choose a city to see curated opportunities filtered from the latest Adzuna feed.</p>",
   "  </header>",
   "  <main>",
   "    <section class=\"search-card\">",
   "      <h2>Search openings by city</h2>",
   "      <form class=\"search-form\" id=\"city-form\">",
   "        <div class=\"search-fields\">",
   "          <label class=\"visually-hidden\" for=\"city-search\">Filter cities</label>",
   "          <input id=\"city-search\" type=\"search\" placeholder=\"Start typing a city...\" autocomplete=\"off\" />",
   "          <label class=\"visually-hidden\" for=\"keyword-search\">Keyword or skill (optional)</label>",
   "          <input id=\"keyword-search\" type=\"search\" placeholder=\"Keyword or skill (optional)\" autocomplete=\"off\" />",
   "          <label class=\"visually-hidden\" for=\"city-select\">Choose a city</label>"]

/-- The `<select id="city-select">` opening line of the template. -/
def selectLine : String :=
  "          <select id=\"city-select\" required>"

/-- The static default option line of the template (`home.py`, line 220). -/
def defaultOptionLine : String :=
  "            <option value=\"\" disabled selected>Select a city</option>"

/-- The lines of the template before the `{options_html}` interpolation
point (the interpolation point is preceded by a newline). -/
def htmlBeforeLines : List String := htmlHeadLines ++ [selectLine, defaultOptionLine]

/-- The fixed part of the `home.py` template before the `{options_html}`
interpolation point. -/
def htmlBefore : String := str_join "\n" htmlBeforeLines ++ "\n"

/-- The lines of the template after the interpolation point (which is
followed by a newline, and the document ends with a newline). -/
def htmlAfterLines : List String :=
  ["          </select>",
   "        </div>",
   "        <button type=\"submit\">View city insights</button>",
   "      </form>",
   "    </section>",
   "  </main>",
   "  <footer>",
   "    &copy; 2024 North Carolina Careers Hub. Connecting talent with opportunity statewide.",
   "  </footer>",
   "",
   "  <style>",
   "    .visually-hidden \x7b",
   "      position: absolute;",
   "      width: 1px;",
   "      height: 1px;",
   "      padding: 0;",
   "      margin: -1px;",
   "      overflow: hidden;",
   "      clip: rect(0, 0, 0, 0);",
   "      white-space: nowrap;",
   "      border: 0;",
   "    \x7d",
   "  </style>",
   "  <script>",
   "    const searchInput = document.getElementById(\x27city-search\x27);",
   "    const keywordInput = document.getElementById(\x27keyword-search\x27);",
   "    const citySelect = document.getElementById(\x27city-select\x27);",
   "    const form = document.getElementById(\x27city-form\x27);",
   "",
   "    if (searchInput && citySelect) \x7b",
   "      searchInput.addEventListener(\x27input\x27, () => \x7b",
   "        const term = searchInput.value.trim().toLowerCase();",
   "        let firstVisible = null;",
   "        Array.from(citySelect.options).forEach(option => \x7b",
   "          if (!option.value) return;",
   "          const match = option.text.toLowerCase().includes(term);",
   "          option.hidden = !match;",
   "          if (match && !firstVisible) \x7b",
   "            firstVisible = option;",
   "          \x7d",
   "        \x7d);",
   "        if (firstVisible) \x7b",
   "          citySelect.value = firstVisible.value;",
   "        \x7d else \x7b",
   "          citySelect.value = \x27\x27;",
   "        \x7d",
   "      \x7d);",
   "    \x7d",
   "",
   "    if (form && citySelect) \x7b",
   "      form.addEventListener(\x27submit\x27, event => \x7b",
   "        event.preventDefault();",
   "        let destination = citySelect.value;",
   "        if (!destination) return;",
   "",
   "        const keyword = keywordInput ? keywordInput.value.trim() : \x27\x27;",
   "        if (keyword) \x7b",
   "          const joiner = destination.includes(\x27?\x27) ? \x27&\x27 : \x27?\x27;",
   "          destination += joiner + \x27q=\x27 + encodeURIComponent(keyword);",
   "        \x7d",
   "        window.location.href = destination;",
   "      \x7d);",
   "    \x7d",
   "  </script>",
   "</body>",
   "</html>"]

/-- The fixed part of the template after the interpolation point. -/
def htmlAfter : String := "\n" ++ str_join "\n" htmlAfterLines ++ "\n"

/-- One character of Python stdlib `html.escape(s, quote=True)`: the five
special characters become entities, everything else passes through.  The
stdlib chains single-character replaces (`&` first); since no replacement
string contains a character replaced by a later pass, that chain acts
independently on each input character, which is what this function does.
Code 34 is the double quote and code 39 the single quote. -/
def escapeChar (c : Char) : List Char :=
  if c = '&' then "&amp;".data
  else if c = '<' then "&lt;".data
  else if c = '>' then "&gt;".data
  else if c = Char.ofNat 34 then "&quot;".data
  else if c = Char.ofNat 39 then "&#x27;".data
  else [c]

/-- Python `html.escape(s, quote=True)` (`home.py` imports `html`). -/
def html_escape (s : String) : String := String.mk (List.flatten (s.data.map escapeChar))

example : html_escape "AT&T" = "AT&amp;T" := by decide
example : html_escape "a<b>\"c\"" = "a&lt;b&gt;&quot;c&quot;" := by decide

/-- One rendered `<option>` line of `home.py` (line 57): value is the escaped
path, text the escaped label. -/
def optionLine (label path : String) : String :=
  "          <option value=\"" ++ html_escape path ++ "\">" ++ html_escape label
    ++ "</option>"

/-- The `options_html` join of `home.py` (lines 56-59). -/
def options_html (city_pages : List (String × String)) : String :=
  str_join "\n" (city_pages.map (fun e => optionLine e.1 e.2))

/-- The placeholder option emitted when no city page was discovered
(`home.py`, line 62). -/
def placeholderOption : String :=
  "          <option value=\"\" disabled>No city pages found</option>"

/-- `build_home_html` from `home.py` (lines 54-288): the fixed template with
`options_html` interpolated, where an empty (falsy) `options_html` string is
replaced by the placeholder option. -/
def build_home_html (city_pages : List (String × String)) : String :=
  let opts := options_html city_pages
  htmlBefore ++ (if opts = "" then placeholderOption else opts) ++ htmlAfter

/-- Number of (possibly overlapping) occurrences of `pat` in the suffix list. -/
def countSubstrAux (pat : List Char) : List Char → Nat
  | [] => 0
  | c :: cs => (if pat.isPrefixOf (c :: cs) then 1 else 0) + countSubstrAux pat cs

/-- Number of occurrences of the pattern `pat` in `s`. -/
def countSubstr (s pat : String) : Nat := countSubstrAux pat.data s.data

example : countSubstr "abcabcab" "abc" = 2 := by decide

/-! ## Counting occurrences in the rendered document -/

/-- Number of occurrences of a character in a string. -/
def charCount (s : String) (c : Char) : Nat := s.data.count c

theorem isPrefixOf_append_cons (c : Char) :
    ∀ (pat t ys : List Char), c ∉ pat →
      pat.isPrefixOf (t ++ c :: ys) = pat.isPrefixOf t := by
  intro pat
  induction pat with
  | nil => intro t ys _; simp [List.isPrefixOf]
  | cons p ps ih =>
    intro t ys hc
    cases t with
    | nil =>
      have hpc : ¬ (p = c) := fun h => hc (by simp [h])
      simp [List.isPrefixOf, hpc]
    | cons a t =>
      simp only [List.cons_append, List.isPrefixOf, List.append_eq]
      rw [ih t ys (fun hm => hc (List.mem_cons_of_mem _ hm))]

theorem countSubstrAux_append (pat : List Char) (hne : pat ≠ []) (c : Char)
    (hc : c ∉ pat) :
    ∀ xs ys, countSubstrAux pat (xs ++ c :: ys)
      = countSubstrAux pat xs + countSubstrAux pat ys := by
  intro xs
  induction xs with
  | nil =>
    intro ys
    have hp : pat.isPrefixOf (c :: ys) = false := by
      cases pat with
      | nil => exact absurd rfl hne
      | cons p ps =>
        have hpc : ¬ (p = c) := fun h => hc (by simp [h])
        simp [List.isPrefixOf, hpc]
    simp [countSubstrAux, hp]
  | cons x xs ih =>
    intro ys
    have e1 : countSubstrAux pat ((x :: xs) ++ c :: ys)
        = (if pat.isPrefixOf ((x :: xs) ++ c :: ys) then 1 else 0)
            + countSubstrAux pat (xs ++ c :: ys) := rfl
    have e2 : countSubstrAux pat (x :: xs)
        = (if pat.isPrefixOf (x :: xs) then 1 else 0) + countSubstrAux pat xs := rfl
    rw [e1, e2, isPrefixOf_append_cons c pat (x :: xs) ys hc, ih ys]
    omega

theorem countSubstr_strJoin (pat : String) (hne : pat.data ≠ [])
    (hnl : Char.ofNat 10 ∉ pat.data) :
    ∀ lines, countSubstr (str_join "\n" lines) pat
      = (lines.map (fun l => countSubstr l pat)).sum := by
  have hnl' : Char.ofNat 10 ∉ pat.data := hnl
  intro lines
  induction lines with
  | nil => simp [countSubstr, str_join, countSubstrAux]
  | cons l rest ih =>
    cases rest with
    | nil => simp [str_join]
    | cons l2 rest2 =>
      have hdata : (str_join "\n" (l :: l2 :: rest2)).data
          = l.data ++ Char.ofNat 10 :: (str_join "\n" (l2 :: rest2)).data := by
        show (l ++ "\n" ++ str_join "\n" (l2 :: rest2)).data = _
        rw [String.data_append (l ++ "\n") (str_join "\n" (l2 :: rest2)),
            String.data_append l "\n"]
        simp only [List.append_assoc]
        rfl
      unfold countSubstr
      rw [hdata, countSubstrAux_append pat.data hne (Char.ofNat 10) hnl']
      rw [show countSubstrAux pat.data (str_join "\n" (l2 :: rest2)).data
            = countSubstr (str_join "\n" (l2 :: rest2)) pat from rfl]
      rw [ih]
      simp [countSubstr]

theorem countSubstr_append_newline (pat : String) (hne : pat.data ≠ [])
    (hnl : Char.ofNat 10 ∉ pat.data) (s : String) :
    countSubstr (s ++ "\n") pat = countSubstr s pat := by
  unfold countSubstr
  rw [String.data_append s "\n"]
  rw [show ("\n" : String).data = [Char.ofNat 10] from rfl]
  rw [countSubstrAux_append pat.data hne (Char.ofNat 10) hnl]
  simp [countSubstrAux]

theorem strJoin_append :
    ∀ (xs ys : List String), xs ≠ [] → ys ≠ [] →
      str_join "\n" (xs ++ ys) = str_join "\n" xs ++ "\n" ++ str_join "\n" ys := by
  intro xs
  induction xs with
  | nil => intro ys h _; exact absurd rfl h
  | cons x xs ih =>
    intro ys _ hys
    cases xs with
    | nil =>
      cases ys with
      | nil => exact absurd rfl hys
      | cons y ys => rfl
    | cons x2 xs2 =>
      show x ++ "\n" ++ str_join "\n" ((x2 :: xs2) ++ ys) = _
      rw [ih ys (by simp) hys]
      show _ = x ++ "\n" ++ str_join "\n" (x2 :: xs2) ++ "\n" ++ str_join "\n" ys
      simp [String.append_assoc]

/-! ## Structure of the rendered document -/

/-- Unfolding of `build_home_html` at its `if`. -/
theorem build_home_html_eq (cps : List (String × String)) :
    build_home_html cps
      = htmlBefore ++ (if options_html cps = "" then placeholderOption
                       else options_html cps) ++ htmlAfter := rfl

theorem data_eq_nil_iff (s : String) : s.data = [] ↔ s = "" := by
  cases s with
  | mk d =>
    constructor
    · intro h
      show String.mk d = ""
      have : d = [] := h
      rw [this]
    · intro h
      rw [h]

theorem optionLine_data (l p : String) :
    (optionLine l p).data
      = "          <option value=\"".data ++ (html_escape p).data
          ++ "\">".data ++ (html_escape l).data ++ "</option>".data := by
  unfold optionLine
  simp only [String.data_append]

theorem optionLine_ne_empty (l p : String) : optionLine l p ≠ "" := by
  intro h
  have h2 := congrArg String.data h
  rw [optionLine_data] at h2
  have h3 :=
    (List.append_eq_nil.mp
      ((List.append_eq_nil.mp
        ((List.append_eq_nil.mp ((List.append_eq_nil.mp h2).1)).1)).1)).1
  exact absurd h3 (by decide)

theorem options_html_ne_empty :
    ∀ cps : List (String × String), cps ≠ [] → options_html cps ≠ "" := by
  intro cps h
  cases cps with
  | nil => exact absurd rfl h
  | cons e rest =>
    cases rest with
    | nil => exact optionLine_ne_empty e.1 e.2
    | cons e2 rest2 =>
      show optionLine e.1 e.2 ++ "\n" ++ _ ≠ ""
      intro hx
      have h2 := congrArg String.data hx
      rw [String.data_append, String.data_append] at h2
      have h3 := (List.append_eq_nil.mp (List.append_eq_nil.mp h2).1).1
      exact optionLine_ne_empty e.1 e.2 ((data_eq_nil_iff _).mp h3)

/-- For a non-empty entry list the rendered document interpolates exactly the
joined option lines. -/
theorem build_home_html_of_ne (cps : List (String × String)) (h : cps ≠ []) :
    build_home_html cps = htmlBefore ++ options_html cps ++ htmlAfter := by
  rw [build_home_html_eq, if_neg (options_html_ne_empty cps h)]

/-- Assembling the document from template lines, middle lines and trailing
newline. -/
theorem templateAssemble (mid : String) (midLines : List String)
    (hm : mid = str_join "\n" midLines) (hne : midLines ≠ []) :
    htmlBefore ++ mid ++ htmlAfter
      = str_join "\n" (htmlBeforeLines ++ midLines ++ htmlAfterLines) ++ "\n" := by
  subst hm
  have hb : htmlBeforeLines ≠ [] := by unfold htmlBeforeLines htmlHeadLines; decide
  have ha : htmlAfterLines ≠ [] := by unfold htmlAfterLines; decide
  have hbm : htmlBeforeLines ++ midLines ≠ [] := by
    intro h; exact hb (List.append_eq_nil.mp h).1
  rw [show htmlBeforeLines ++ midLines ++ htmlAfterLines
        = (htmlBeforeLines ++ midLines) ++ htmlAfterLines from by
      simp [List.append_assoc]]
  rw [strJoin_append (htmlBeforeLines ++ midLines) htmlAfterLines hbm ha]
  rw [strJoin_append htmlBeforeLines midLines hb hne]
  show str_join "\n" htmlBeforeLines ++ "\n" ++ str_join "\n" midLines
      ++ ("\n" ++ str_join "\n" htmlAfterLines ++ "\n") = _
  simp [String.append_assoc]

/-- The document for an empty entry list, as its list of lines. -/
theorem build_home_html_nil_lines :
    build_home_html []
      = str_join "\n" (htmlBeforeLines ++ [placeholderOption] ++ htmlAfterLines)
          ++ "\n" := by
  rw [build_home_html_eq]
  exact templateAssemble _ [placeholderOption] rfl (by simp)

/-- The document for a non-empty entry list, as its list of lines: one option
line per entry, in order, between the fixed template lines. -/
theorem build_home_html_lines (cps : List (String × String)) (h : cps ≠ []) :
    build_home_html cps
      = str_join "\n"
          (htmlBeforeLines ++ cps.map (fun e => optionLine e.1 e.2) ++ htmlAfterLines)
          ++ "\n" := by
  rw [build_home_html_of_ne cps h]
  refine templateAssemble _ _ rfl ?_
  cases cps with
  | nil => exact absurd rfl h
  | cons e rest => simp

/-- Substring counts of a joined-lines document are the sums of the per-line
counts, for a non-empty pattern without newline. -/
theorem countSubstr_lines (pat : String) (hne : pat.data ≠ [])
    (hnl : Char.ofNat 10 ∉ pat.data) (lines : List String) :
    countSubstr (str_join "\n" lines ++ "\n") pat
      = (lines.map (fun l => countSubstr l pat)).sum := by
  rw [countSubstr_append_newline pat hne hnl, countSubstr_strJoin pat hne hnl]

/-! ## Properties of `html_escape` -/

/-- The five characters that `html.escape(s, quote=True)` replaces. -/
def specialChar (c : Char) : Bool :=
  decide (c = '&' ∨ c = '<' ∨ c = '>' ∨ c = Char.ofNat 34 ∨ c = Char.ofNat 39)

theorem mem_html_escape (c : Char) (s : String) (hm : c ∈ (html_escape s).data) :
    ∃ x ∈ s.data, c ∈ escapeChar x := by
  unfold html_escape at hm
  have h : c ∈ List.flatten (s.data.map escapeChar) := hm
  rcases List.mem_flatten.mp h with ⟨l, hl, hcl⟩
  rcases List.mem_map.mp hl with ⟨x, hx, rfl⟩
  exact ⟨x, hx, hcl⟩

theorem not_mem_html_escape (c : Char)
    (h1 : c ∉ "&amp;".data) (h2 : c ∉ "&lt;".data) (h3 : c ∉ "&gt;".data)
    (h4 : c ∉ "&quot;".data) (h5 : c ∉ "&#x27;".data) (h6 : specialChar c = true)
    (s : String) : c ∉ (html_escape s).data := by
  intro hm
  rcases mem_html_escape c s hm with ⟨x, _, hcx⟩
  unfold escapeChar at hcx
  split_ifs at hcx with e1 e2 e3 e4 e5
  · exact h1 hcx
  · exact h2 hcx
  · exact h3 hcx
  · exact h4 hcx
  · exact h5 hcx
  · have hcxe : c = x := by simpa using hcx
    subst hcxe
    simp only [specialChar, decide_eq_true_eq] at h6
    rcases h6 with h | h | h | h | h
    · exact e1 h
    · exact e2 h
    · exact e3 h
    · exact e4 h
    · exact e5 h

theorem count_escapeChar_amp (x : Char) :
    (escapeChar x).count (Char.ofNat 38) = (if specialChar x = true then 1 else 0) := by
  by_cases e1 : x = '&'
  · subst e1; decide
  by_cases e2 : x = '<'
  · subst e2; decide
  by_cases e3 : x = '>'
  · subst e3; decide
  by_cases e4 : x = Char.ofNat 34
  · subst e4; decide
  by_cases e5 : x = Char.ofNat 39
  · subst e5; decide
  have hd : escapeChar x = [x] := by
    unfold escapeChar
    simp [e1, e2, e3, e4, e5]
  have hs : specialChar x = false := by
    unfold specialChar
    simp [e1, e2, e3, e4, e5]
  rw [hd, hs]
  have hxa : (x == Char.ofNat 38) = false := by
    have : ¬ x = Char.ofNat 38 := by
      rw [show Char.ofNat 38 = '&' from by decide]
      exact e1
    simp [this]
  simp [List.count_cons, hxa]

theorem charCount_html_escape_amp (s : String) :
    charCount (html_escape s) (Char.ofNat 38) = s.data.countP specialChar := by
  cases s with
  | mk d =>
    show (List.flatten (d.map escapeChar)).count (Char.ofNat 38) = d.countP specialChar
    induction d with
    | nil => rfl
    | cons x xs ih =>
      simp only [List.map_cons, List.flatten_cons, List.count_append, List.countP_cons]
      rw [ih, count_escapeChar_amp x]
      by_cases hx : specialChar x = true
      · simp [hx]
        omega
      · simp [Bool.eq_false_iff.mpr hx, hx]

/-! ## Invariants of the discovery index -/

/-- The labels recorded in the discovery index. -/
def keys (d : List (String × List String)) : List String := d.map Prod.fst

theorem lookupLabel_insertUpdate (d : List (String × List String)) (k : String)
    (v : List String) (l : String) :
    lookupLabel (insertUpdate d k v) l
      = if k = l then some v else lookupLabel d l := by
  induction d with
  | nil =>
    show lookupLabel [(k, v)] l = _
    by_cases h : k = l <;> simp [lookupLabel, h]
  | cons e rest ih =>
    obtain ⟨k', v'⟩ := e
    show lookupLabel (if k' = k then (k', v) :: rest else (k', v') :: insertUpdate rest k v) l = _
    by_cases h : k' = k
    · subst h
      by_cases h2 : k' = l <;> simp [lookupLabel, h2]
    · by_cases h2 : k' = l
      · subst h2
        have hkl : ¬ k = k' := fun he => h he.symm
        simp [lookupLabel, h, hkl]
      · simp [lookupLabel, h, h2, ih]

theorem mem_insertUpdate (d : List (String × List String)) (k : String)
    (v : List String) :
    ∀ e ∈ insertUpdate d k v, e ∈ d ∨ e = (k, v) := by
  induction d with
  | nil =>
    intro e he
    simp [insertUpdate] at he
    exact Or.inr he
  | cons x rest ih =>
    obtain ⟨k', v'⟩ := x
    intro e he
    show e ∈ (k', v') :: rest ∨ _
    by_cases h : k' = k
    · subst h
      simp only [insertUpdate, if_pos rfl] at he
      rcases List.mem_cons.mp he with h1 | h1
      · exact Or.inr (by rw [h1])
      · exact Or.inl (List.mem_cons_of_mem _ h1)
    · simp only [insertUpdate, if_neg h] at he
      rcases List.mem_cons.mp he with h1 | h1
      · exact Or.inl (by rw [h1]; exact List.mem_cons_self _ _)
      · rcases ih e h1 with h2 | h2
        · exact Or.inl (List.mem_cons_of_mem _ h2)
        · exact Or.inr h2

theorem keys_insertUpdate_subset (d : List (String × List String)) (k : String)
    (v : List String) :
    ∀ l ∈ keys (insertUpdate d k v), l ∈ keys d ∨ l = k := by
  intro l hl
  rcases List.mem_map.mp hl with ⟨e, he, rfl⟩
  rcases mem_insertUpdate d k v e he with h | h
  · exact Or.inl (List.mem_map_of_mem Prod.fst h)
  · exact Or.inr (by rw [h])

theorem nodup_keys_insertUpdate (d : List (String × List String)) (k : String)
    (v : List String) (hd : (keys d).Nodup) : (keys (insertUpdate d k v)).Nodup := by
  induction d with
  | nil => simp [insertUpdate, keys]
  | cons x rest ih =>
    obtain ⟨k', v'⟩ := x
    have hd1 : k' ∉ keys rest := by
      have := List.nodup_cons.mp hd
      exact this.1
    have hd2 : (keys rest).Nodup := (List.nodup_cons.mp hd).2
    by_cases h : k' = k
    · subst h
      simp only [insertUpdate, if_pos rfl]
      exact List.nodup_cons.mpr ⟨hd1, hd2⟩
    · simp only [insertUpdate, if_neg h]
      refine List.nodup_cons.mpr ⟨?_, ih hd2⟩
      intro hmem
      rcases keys_insertUpdate_subset rest k v k' hmem with h2 | h2
      · exact hd1 h2
      · exact h h2

theorem nodup_keys_processPath (d : List (String × List String)) (p : List String)
    (hd : (keys d).Nodup) : (keys (processPath d p)).Nodup := by
  unfold processPath
  split_ifs with h1 h2 h3
  · exact hd
  · exact hd
  · exact nodup_keys_insertUpdate d (labelOf p) p hd
  · exact hd

theorem nodup_keys_foldl (ps : List (List String)) :
    ∀ d, (keys d).Nodup → (keys (ps.foldl processPath d)).Nodup := by
  induction ps with
  | nil => intro d hd; exact hd
  | cons p ps ih =>
    intro d hd
    exact ih (processPath d p) (nodup_keys_processPath d p hd)

theorem nodup_keys_discoveredIndex (t : DistDir) :
    (keys (discoveredIndex t)).Nodup :=
  nodup_keys_foldl (enumeratedPaths t) [] (by simp [keys])

theorem mem_processPath (d : List (String × List String)) (p : List String) :
    ∀ e ∈ processPath d p, e ∈ d ∨ e.2 = p := by
  unfold processPath
  split_ifs with h1 h2 h3
  · intro e he; exact Or.inl he
  · intro e he; exact Or.inl he
  · intro e he
    rcases mem_insertUpdate d (labelOf p) p e he with h | h
    · exact Or.inl h
    · exact Or.inr (by rw [h])
  · intro e he; exact Or.inl he

/-! ## Which paths can be recorded -/

theorem enumeratedPaths_ne_nil (t : DistDir) : ∀ p ∈ enumeratedPaths t, p ≠ [] := by
  intro p hp
  have hp2 : p ∈ htmlFiles t :=
    (List.perm_insertionSort pathLe (htmlFiles t)).mem_iff.mp hp
  have := (List.mem_filter.mp hp2).2
  intro he
  subst he
  simp [fileName, str_endsWith, List.isSuffixOf] at this

theorem processPath_length (d : List (String × List String)) (p : List String)
    (hp : p ≠ []) (hd : ∀ e ∈ d, 2 ≤ e.2.length) :
    ∀ e ∈ processPath d p, 2 ≤ e.2.length := by
  unfold processPath
  split_ifs with h1 h2 h3
  · exact hd
  · exact hd
  · intro e he
    rcases mem_insertUpdate d (labelOf p) p e he with h | h
    · exact hd e h
    · rw [h]
      show 2 ≤ p.length
      rcases p with _ | ⟨x, xs⟩
      · exact absurd rfl hp
      · rcases xs with _ | ⟨y, ys⟩
        · push_neg at h2
          have hx : x = "index.html" := h2 rfl
          exact absurd (by rw [hx]) h1
        · simp only [List.length_cons]
          omega
  · exact hd

theorem foldl_length (ps : List (List String)) :
    ∀ d, (∀ p ∈ ps, p ≠ []) → (∀ e ∈ d, 2 ≤ e.2.length) →
      ∀ e ∈ ps.foldl processPath d, 2 ≤ e.2.length := by
  induction ps with
  | nil => intro d _ hd; exact hd
  | cons p ps ih =>
    intro d hps hd
    exact ih (processPath d p)
      (fun q hq => hps q (List.mem_cons_of_mem _ hq))
      (processPath_length d p (hps p (List.mem_cons_self _ _)) hd)

theorem discoveredIndex_length (t : DistDir) :
    ∀ e ∈ discoveredIndex t, 2 ≤ e.2.length :=
  foldl_length (enumeratedPaths t) [] (enumeratedPaths_ne_nil t) (by simp)

/-! ## Lookup behaviour of the scan loop -/

/-- A candidate that the scan records unconditionally: a file named
`index.html` in a proper subdirectory, whose derived label is `l`. -/
def indexCandidate (p : List String) (l : String) : Prop :=
  fileName p = "index.html" ∧ p ≠ ["index.html"] ∧ labelOf p = l

instance (p : List String) (l : String) : Decidable (indexCandidate p l) := by
  unfold indexCandidate; infer_instance

theorem processPath_lookup_other (d : List (String × List String))
    (p : List String) (l : String) (hl : labelOf p ≠ l) :
    lookupLabel (processPath d p) l = lookupLabel d l := by
  unfold processPath
  split_ifs with h1 h2 h3
  · rfl
  · rfl
  · rw [lookupLabel_insertUpdate, if_neg hl]
  · rfl

theorem processPath_keep (d : List (String × List String)) (p : List String)
    (l : String) (v : List String) (hv : lookupLabel d l = some v)
    (hp : ¬ indexCandidate p l) :
    lookupLabel (processPath d p) l = some v := by
  by_cases hl : labelOf p = l
  · unfold processPath
    split_ifs with h1 h2 h3
    · exact hv
    · exact hv
    · rcases h3 with h3 | h3
      · rw [hl] at h3
        rw [h3] at hv
        cases hv
      · exact absurd ⟨h3, h1, hl⟩ hp
    · exact hv
  · rw [processPath_lookup_other d p l hl]
    exact hv

theorem processPath_index (d : List (String × List String)) (p : List String)
    (l : String) (hc : indexCandidate p l) :
    lookupLabel (processPath d p) l = some p := by
  obtain ⟨hf, hne, hl⟩ := hc
  unfold processPath
  rw [if_neg hne]
  have h2 : ¬ (p.length = 1 ∧ fileName p ≠ "index.html") := by
    intro hx
    exact hx.2 hf
  rw [if_neg h2, if_pos (Or.inr hf), lookupLabel_insertUpdate, hl, if_pos rfl]

theorem foldl_keep (E : List (List String)) :
    ∀ d l v, lookupLabel d l = some v → (∀ q ∈ E, ¬ indexCandidate q l) →
      lookupLabel (E.foldl processPath d) l = some v := by
  induction E with
  | nil => intro d l v hv _; exact hv
  | cons q E ih =>
    intro d l v hv hq
    exact ih (processPath d q) l v
      (processPath_keep d q l v hv (hq q (List.mem_cons_self _ _)))
      (fun r hr => hq r (List.mem_cons_of_mem _ hr))

theorem foldl_last_index (E₁ : List (List String)) (p : List String)
    (E₂ : List (List String)) (l : String) (d : List (String × List String))
    (hc : indexCandidate p l) (hE₂ : ∀ q ∈ E₂, ¬ indexCandidate q l) :
    lookupLabel ((E₁ ++ p :: E₂).foldl processPath d) l = some p := by
  rw [List.foldl_append, List.foldl_cons]
  exact foldl_keep E₂ (processPath (E₁.foldl processPath d) p) l p
    (processPath_index _ p l hc) hE₂

theorem lookupLabel_mem (d : List (String × List String)) (l : String)
    (v : List String) (h : lookupLabel d l = some v) : (l, v) ∈ d := by
  induction d with
  | nil => cases h
  | cons e rest ih =>
    obtain ⟨k, w⟩ := e
    by_cases hk : k = l
    · subst hk
      rw [show lookupLabel ((k, w) :: rest) k = some w from by simp [lookupLabel]] at h
      cases h
      exact List.mem_cons_self _ _
    · simp only [lookupLabel, if_neg hk] at h
      exact List.mem_cons_of_mem _ (ih h)

/-! ## The template around the select element -/

theorem htmlBefore_decomp :
    htmlBefore = str_join "\n" htmlHeadLines ++ "\n" ++ selectLine ++ "\n"
      ++ defaultOptionLine ++ "\n" := by
  have hne : htmlHeadLines ≠ [] := by unfold htmlHeadLines; decide
  show str_join "\n" (htmlHeadLines ++ [selectLine, defaultOptionLine]) ++ "\n" = _
  rw [strJoin_append htmlHeadLines [selectLine, defaultOptionLine] hne (by simp)]
  show str_join "\n" htmlHeadLines ++ "\n"
      ++ (selectLine ++ "\n" ++ defaultOptionLine) ++ "\n" = _
  simp [String.append_assoc]

/-! ## The claims -/

set_option maxRecDepth 8000

/-- C1.  `slug_to_label` maps `"chapel-hill-nc"` to `"Chapel Hill, NC"`,
`"raleigh"` to `"Raleigh"`, and `"winston-salem-nc"` to `"Winston Salem, NC"`. -/
theorem slug_to_label_examples :
    slug_to_label "chapel-hill-nc" = "Chapel Hill, NC"
  ∧ slug_to_label "raleigh" = "Raleigh"
  ∧ slug_to_label "winston-salem-nc" = "Winston Salem, NC" :=
  ⟨by decide, by decide, by decide⟩

/-- C2, counterexample.  The claim that `slug_to_label "nc" = "NC, NC"` is
false on the code: Python's `"NC".title()` is `"Nc"`, so the second character
is lowercased. -/
theorem slug_to_label_nc_counterexample : slug_to_label "nc" ≠ "NC, NC" := by decide

/-- C2, amended.  `slug_to_label` applied to the slug that is exactly `"nc"`
returns the label `"Nc, NC"` (the `city` fallback string `"NC"` is passed
through `str.title()`, which lowercases its second character, before the
literal suffix `", NC"` is appended). -/
theorem slug_to_label_nc_amended : slug_to_label "nc" = "Nc, NC" := by decide

/-- C6.  If the output directory does not exist, `discover_city_pages`
returns the empty list rather than failing. -/
theorem discover_city_pages_missing_dir (files : List (List String)) (n : String) :
    discover_city_pages ⟨false, files⟩ n = [] := rfl

/-- C3.  For every input tree, the entries returned by `discover_city_pages`
are strictly ascending in the lexicographic string order on their labels; in
particular they are sorted by label and no two entries share a label. -/
theorem discover_city_pages_sorted_unique_labels (t : DistDir) (n : String) :
    (discover_city_pages t n).Pairwise (fun a b => strLt a.1 b.1) := by
  unfold discover_city_pages
  by_cases h : t.dirExists = true
  · rw [if_pos h, List.pairwise_map]
    have hs : List.Pairwise itemLe (List.insertionSort itemLe (discoveredIndex t)) :=
      List.sorted_insertionSort itemLe (discoveredIndex t)
    have hn : (keys (List.insertionSort itemLe (discoveredIndex t))).Nodup := by
      have hperm := List.perm_insertionSort itemLe (discoveredIndex t)
      exact (hperm.map Prod.fst).nodup_iff.mpr (nodup_keys_discoveredIndex t)
    have hne : (List.insertionSort itemLe (discoveredIndex t)).Pairwise
        (fun a b => a.1 ≠ b.1) := by
      unfold keys at hn
      exact List.pairwise_map.mp hn
    refine (hs.and hne).imp ?_
    intro a b hab
    rcases hab with ⟨hle | heq, hnab⟩
    · exact hle
    · exact absurd heq.1 hnab
  · rw [if_neg h]
    exact List.Pairwise.nil

/-- C4.  Directory-style `index.html` pages are preferred on label
collisions.  First conjunct (general rule): when the candidate's label is
already recorded and its filename is not `index.html`, the scan step leaves
the index unchanged — an existing entry is only ever overwritten by an
`index.html` candidate.  Second conjunct: with both `raleigh.html` and
`raleigh/index.html` mapping to the label `"Raleigh"`, the directory-style
entry wins (the flat root file is also excluded outright).  Third conjunct:
the same outcome when the two colliding files are nested (`a/raleigh.html`
scanned before `a/raleigh/index.html`, which overwrites it). -/
theorem index_html_preferred_on_label_collision :
    (∀ (d : List (String × List String)) (p v : List String),
        lookupLabel d (labelOf p) = some v → fileName p ≠ "index.html" →
        processPath d p = d)
  ∧ discover_city_pages ⟨true, [["raleigh.html"], ["raleigh", "index.html"]]⟩ "dist"
      = [("Raleigh", "dist/raleigh/index.html")]
  ∧ discover_city_pages ⟨true, [["a", "raleigh.html"], ["a", "raleigh", "index.html"]]⟩
        "dist"
      = [("Raleigh", "dist/a/raleigh/index.html")] := by
  refine ⟨?_, by decide, by decide⟩
  intro d p v hv hf
  unfold processPath
  split_ifs with h1 h2 h3
  · rfl
  · rfl
  · rcases h3 with h3 | h3
    · rw [hv] at h3
      cases h3
    · exact absurd h3 hf
  · rfl

/-- Witness for C4: a non-index candidate whose label is already recorded
leaves the index unchanged. -/
theorem index_html_preferred_on_label_collision_witness :
    processPath [("Raleigh", ["raleigh", "index.html"])] ["x", "raleigh.html"]
      = [("Raleigh", ["raleigh", "index.html"])] :=
  index_html_preferred_on_label_collision.1
    [("Raleigh", ["raleigh", "index.html"])] ["x", "raleigh.html"]
    ["raleigh", "index.html"] (by decide) (by decide)

/-- C5.  No discovered entry points at the root `index.html` of the output
directory, nor at a non-index `.html` file sitting directly in the output
root: every entry's link resolves to a path with at least two components
below the output directory. -/
theorem discover_city_pages_excludes_root (t : DistDir) (n : String)
    (e : String × String) (he : e ∈ discover_city_pages t n) :
    ∃ p, 2 ≤ p.length ∧ p ≠ ["index.html"] ∧ p.length ≠ 1
      ∧ e.2 = rel_path n p := by
  unfold discover_city_pages at he
  by_cases h : t.dirExists = true
  · rw [if_pos h] at he
    rcases List.mem_map.mp he with ⟨x, hx, rfl⟩
    have hx2 : x ∈ discoveredIndex t :=
      (List.perm_insertionSort itemLe (discoveredIndex t)).mem_iff.mp hx
    have hlen := discoveredIndex_length t x hx2
    refine ⟨x.2, hlen, ?_, ?_, rfl⟩
    · intro hq
      rw [hq] at hlen
      simp at hlen
    · omega
  · rw [if_neg h] at he
    exact absurd he (List.not_mem_nil e)

/-- Witness for C5 at a concrete tree and entry. -/
theorem discover_city_pages_excludes_root_witness :
    ∃ p, 2 ≤ p.length ∧ p ≠ ["index.html"] ∧ p.length ≠ 1
      ∧ ("Raleigh", "dist/raleigh/index.html").2 = rel_path "dist" p :=
  discover_city_pages_excludes_root ⟨true, [["raleigh", "index.html"]]⟩ "dist"
    ("Raleigh", "dist/raleigh/index.html") (by decide)

/-- C10.  If the enumeration splits as `E₁ ++ p :: E₂` where `p` is an
`index.html` candidate with label `l` and no later candidate is an
`index.html` with that label, then the index records `p` for `l` — the last
(equivalently, lexicographically greatest: every earlier enumerated path is
`≤ p` in the enumeration order) such candidate wins — and the corresponding
entry appears in the output when the directory exists. -/
theorem last_index_candidate_wins (t : DistDir) (n : String)
    (E₁ E₂ : List (List String)) (p : List String) (l : String)
    (hE : enumeratedPaths t = E₁ ++ p :: E₂)
    (hc : indexCandidate p l) (h₂ : ∀ q ∈ E₂, ¬ indexCandidate q l) :
    lookupLabel (discoveredIndex t) l = some p
  ∧ (∀ q ∈ E₁, pathLe q p)
  ∧ (t.dirExists = true → (l, rel_path n p) ∈ discover_city_pages t n) := by
  have hlk : lookupLabel (discoveredIndex t) l = some p := by
    unfold discoveredIndex
    rw [hE]
    exact foldl_last_index E₁ p E₂ l [] hc h₂
  refine ⟨hlk, ?_, ?_⟩
  · have hs : List.Pairwise pathLe (enumeratedPaths t) :=
      List.sorted_insertionSort pathLe (htmlFiles t)
    rw [hE] at hs
    have hall := (List.pairwise_append.mp hs).2.2
    intro q hq
    exact hall q hq p (List.mem_cons_self _ _)
  · intro hd
    unfold discover_city_pages
    rw [if_pos hd]
    have hmem : (l, p) ∈ discoveredIndex t := lookupLabel_mem _ _ _ hlk
    have hmem2 : (l, p) ∈ List.insertionSort itemLe (discoveredIndex t) :=
      (List.perm_insertionSort itemLe (discoveredIndex t)).mem_iff.mpr hmem
    exact List.mem_map.mpr ⟨(l, p), hmem2, rfl⟩

/-- Witness for C10: two `index.html` files share the label `"A, NC"`; the
later (greater) path `b/a-nc/index.html` is recorded and rendered. -/
theorem last_index_candidate_wins_witness :
    lookupLabel
        (discoveredIndex ⟨true, [["a-nc", "index.html"], ["b", "a-nc", "index.html"]]⟩)
        "A, NC"
      = some ["b", "a-nc", "index.html"]
  ∧ (∀ q ∈ [["a-nc", "index.html"]], pathLe q ["b", "a-nc", "index.html"])
  ∧ ((⟨true, [["a-nc", "index.html"], ["b", "a-nc", "index.html"]]⟩ : DistDir).dirExists
        = true →
      ("A, NC", rel_path "dist" ["b", "a-nc", "index.html"])
        ∈ discover_city_pages
            ⟨true, [["a-nc", "index.html"], ["b", "a-nc", "index.html"]]⟩ "dist") :=
  last_index_candidate_wins
    ⟨true, [["a-nc", "index.html"], ["b", "a-nc", "index.html"]]⟩ "dist"
    [["a-nc", "index.html"]] [] ["b", "a-nc", "index.html"] "A, NC"
    (by decide) (by decide) (by simp)

/-- C7.  On an empty entry list the renderer interpolates exactly the single
disabled placeholder option announcing that no pages were found: the document
is the fixed template around that one line, the placeholder option and its
message occur exactly once, the only two option elements are the static
disabled `Select a city` default and the placeholder (so the select element
is not empty and there are no entry options), and option/select tags are
balanced. -/
theorem build_home_html_empty_placeholder :
    build_home_html [] = htmlBefore ++ placeholderOption ++ htmlAfter
  ∧ countSubstr (build_home_html []) placeholderOption = 1
  ∧ countSubstr (build_home_html []) "No city pages found" = 1
  ∧ countSubstr (build_home_html []) "<option" = 2
  ∧ countSubstr (build_home_html []) "</option>" = 2
  ∧ countSubstr (build_home_html []) "<select" = 1
  ∧ countSubstr (build_home_html []) "</select>" = 1 := by
  refine ⟨?_, ?_, ?_, ?_, ?_, ?_, ?_⟩
  · rw [build_home_html_eq, if_pos (show options_html [] = "" from rfl)]
  · rw [build_home_html_nil_lines, countSubstr_lines _ (by decide) (by decide)]
    decide
  · rw [build_home_html_nil_lines, countSubstr_lines _ (by decide) (by decide)]
    decide
  · rw [build_home_html_nil_lines, countSubstr_lines _ (by decide) (by decide)]
    decide
  · rw [build_home_html_nil_lines, countSubstr_lines _ (by decide) (by decide)]
    decide
  · rw [build_home_html_nil_lines, countSubstr_lines _ (by decide) (by decide)]
    decide
  · rw [build_home_html_nil_lines, countSubstr_lines _ (by decide) (by decide)]
    decide

/-- C8.  For a non-empty entry list the renderer emits exactly one option
line per entry, in order, with the escaped path as the value attribute and
the escaped label as the visible text (first conjunct, with `optionLine`
carrying the attribute/text layout).  Escaping closes the markup context:
the escaped strings never contain a raw `<` (60), `>` (62), `"` (34) or
`'` (39) (second conjunct), and every special source character — ampersand
included — becomes exactly one `&`-led entity (third conjunct); in
particular a label containing `&` is rendered with `&amp;` (fourth
conjunct). -/
theorem build_home_html_options_escaped :
    (∀ cps : List (String × String), cps ≠ [] →
        build_home_html cps
          = htmlBefore ++ str_join "\n" (cps.map (fun e => optionLine e.1 e.2))
              ++ htmlAfter)
  ∧ (∀ s : String,
        Char.ofNat 60 ∉ (html_escape s).data ∧ Char.ofNat 62 ∉ (html_escape s).data
      ∧ Char.ofNat 34 ∉ (html_escape s).data ∧ Char.ofNat 39 ∉ (html_escape s).data)
  ∧ (∀ s : String, charCount (html_escape s) (Char.ofNat 38) = s.data.countP specialChar)
  ∧ html_escape "AT&T" = "AT&amp;T" := by
  refine ⟨?_, ?_, charCount_html_escape_amp, by decide⟩
  · intro cps h
    rw [build_home_html_of_ne cps h]
    rfl
  · intro s
    exact ⟨not_mem_html_escape _ (by decide) (by decide) (by decide) (by decide)
        (by decide) (by decide) s,
      not_mem_html_escape _ (by decide) (by decide) (by decide) (by decide)
        (by decide) (by decide) s,
      not_mem_html_escape _ (by decide) (by decide) (by decide) (by decide)
        (by decide) (by decide) s,
      not_mem_html_escape _ (by decide) (by decide) (by decide) (by decide)
        (by decide) (by decide) s⟩

/-- Witness for C8 at a concrete non-empty entry list. -/
theorem build_home_html_options_escaped_witness :
    build_home_html [("Raleigh", "dist/raleigh/index.html")]
      = htmlBefore
          ++ str_join "\n"
              ([("Raleigh", "dist/raleigh/index.html")].map
                (fun e => optionLine e.1 e.2))
          ++ htmlAfter :=
  build_home_html_options_escaped.1 [("Raleigh", "dist/raleigh/index.html")] (by simp)

/-- C9.  For every entry list the rendered document opens the city select
element with the disabled, initially selected `Select a city` option of empty
value, and this option precedes all interpolated (entry or placeholder)
options: the document factors as head lines (which contain no option and no
select tag at all), then the select line, then the default option line, then
the interpolated options, then the rest of the template. -/
theorem build_home_html_default_option_first :
    (∀ cps : List (String × String), ∃ mid,
        build_home_html cps
          = str_join "\n" htmlHeadLines ++ "\n" ++ selectLine ++ "\n"
              ++ defaultOptionLine ++ "\n" ++ mid ++ htmlAfter
        ∧ ((options_html cps = "" ∧ mid = placeholderOption)
            ∨ mid = options_html cps))
  ∧ countSubstr (str_join "\n" htmlHeadLines) "<option" = 0
  ∧ countSubstr (str_join "\n" htmlHeadLines) "<select" = 0
  ∧ selectLine = "          <select id=\"city-select\" required>"
  ∧ defaultOptionLine
      = "            <option value=\"\" disabled selected>Select a city</option>" := by
  refine ⟨?_, ?_, ?_, by decide, by decide⟩
  · intro cps
    refine ⟨if options_html cps = "" then placeholderOption else options_html cps,
      ?_, ?_⟩
    · rw [build_home_html_eq, htmlBefore_decomp]
    · by_cases h : options_html cps = ""
      · exact Or.inl ⟨h, if_pos h⟩
      · exact Or.inr (if_neg h)
  · rw [countSubstr_strJoin _ (by decide) (by decide)]
    decide
  · rw [countSubstr_strJoin _ (by decide) (by decide)]
    decide
